import Mathlib

/-!
# gitbase: repository-pool checksum and the blame generator

A shallow embedding of `checksum.go` (package `gitbase`) and of
`internal/function/blame.go` (package `function`), with the properties
established about them.

Conventions of the embedding:

* a Go function returning `(value, error)` returns a Lean pair
  `(value, Option GoError)`; `none` is the `nil` error and a `nil` pointer or
  interface value is `none`;
* a call that gives either a value with a `nil` error or an error with a `nil`
  value is an `Except GoError _`: the calls into the libraries the code uses
  (go-git, go-mysql-server, the file system), whose outcomes are data of the
  model, and the two helpers `resolveRepo` and `resolveCommit`;
* a run-time panic (nil dereference, index out of range) ends the execution and
  is the `Run.panics` outcome;
* mutable objects reached through pointers are passed and returned explicitly.
-/

namespace Gitbase

/-- Go `error` values: the sentinel errors the code compares against, and any other error. -/
inductive GoError where
  /-- `io.EOF` -/
  | EOF
  /-- `git.ErrRepositoryNotExists` -/
  | ErrRepositoryNotExists
  /-- `plumbing.ErrReferenceNotFound` -/
  | ErrReferenceNotFound
  /-- any other error, with its message -/
  | other (msg : String)
  deriving DecidableEq, Repr

/-- The `Error()` method: the message of an error value. -/
def GoError.Error : GoError → String
  | .EOF => "EOF"
  | .ErrRepositoryNotExists => "repository does not exist"
  | .ErrReferenceNotFound => "reference not found"
  | .other msg => msg

/-- The run-time panics the code can raise. -/
inductive Panic where
  /-- a method call or field access through a `nil` pointer or interface -/
  | nilDereference
  /-- a slice index outside `0 .. len-1` -/
  | indexOutOfRange
  deriving DecidableEq, Repr

/-- Outcome of running a Go function: it returns, or it panics. -/
inductive Run (α : Type) where
  | returns (a : α)
  | panics (p : Panic)
  deriving DecidableEq, Repr

/-! ## `checksum.go` -/

/-- A byte slice. -/
abbrev Bytes := List UInt8

/-- The bytes of a Go string: `[]byte(s)`, and what `buf.WriteString(s)` appends. -/
def bytesOf (s : String) : Bytes := s.toUTF8.data.toList

/-- The Go pair `(value, err)` of a call that gives a value or an error. -/
def goPair {α : Type} : Except GoError α → Option α × Option GoError
  | .ok a => (some a, none)
  | .error e => (none, some e)

/-- One packfile of a repository, as the outcomes of the calls `readChecksum`
makes for it. -/
structure Packfile where
  /-- the error of `dot.ObjectPack(p)`, if any -/
  objectPack : Option GoError
  /-- the error of `f.Seek(-20, io.SeekEnd)`, if any -/
  seek : Option GoError
  /-- `io.ReadFull(f, checksum)`: the 20 bytes read, or the error -/
  readFull : Except GoError Bytes
  /-- the error of `f.Close()`, if any -/
  close : Option GoError

/-- A `plumbing.Reference`: its name and the string form of its hash. -/
structure Reference where
  /-- `string(r.Name())` -/
  name : String
  /-- `r.Hash().String()` -/
  hash : String
  deriving DecidableEq, Repr

/-- The reference iterator `repo.References()` gives: the references it yields,
and the error that ends the iteration, if any. -/
structure ReferenceIter where
  refs : List Reference
  err : Option GoError

/-- `refs.ForEach` with the callback of `readRefs`, which writes the name and
the hash of each reference to the buffer and returns no error. -/
def ReferenceIter.ForEach (it : ReferenceIter) (buf : Bytes) : Bytes × Option GoError :=
  (it.refs.foldl (fun b r => b ++ bytesOf r.name ++ bytesOf r.hash) buf, it.err)

/-- A `*git.Repository`, as the outcomes of the calls `readRefs` makes on it. -/
structure GitRepository where
  /-- `repo.Head()` -/
  Head : Except GoError Reference
  /-- `repo.References()` -/
  References : Except GoError ReferenceIter

/-- A value of the `repository` interface, as the outcomes of its calls. -/
structure repository where
  /-- the error of `r.FS()`, if any -/
  FS : Option GoError
  /-- `repositoryPackfiles(fs)`: the packfiles of the repository -/
  packfiles : Except GoError (List Packfile)
  /-- `r.Repo()` -/
  Repo : Except GoError GitRepository

/-- The loop of `readChecksum` over the packfiles; `result` is the slice built so far. -/
def readChecksum.loop : List Packfile → Bytes → Bytes × Option GoError
  | [], result => (result, none)
  | p :: ps, result =>
    match p.objectPack with
    | some err => ([], some err)
    | none =>
      match p.seek with
      | some err => ([], some err)
      | none =>
        match p.readFull with
        | .error err => ([], some err)
        | .ok checksum =>
          match p.close with
          | some err => ([], some err)
          | none => readChecksum.loop ps (result ++ checksum)

/-- `readChecksum`. -/
def readChecksum (r : repository) : Bytes × Option GoError :=
  match r.FS with
  | some err => ([], some err)
  | none =>
    match r.packfiles with
    | .error err => ([], some err)
    | .ok packfiles => readChecksum.loop packfiles []

/-- `readRefs`. -/
def readRefs (r : repository) : Run (Bytes × Option GoError) :=
  match r.Repo with
  | .error err =>
    if err = .ErrRepositoryNotExists then .returns ([], none) else .returns ([], some err)
  | .ok repo =>
    -- head, err := repo.Head()
    match goPair repo.Head with
    | (head, err) =>
      if err ≠ none ∧ err ≠ some .ErrReferenceNotFound then .returns ([], err)
      else
        -- buf.WriteString("HEAD"); buf.WriteString(head.Hash().String())
        match head with
        | none => .panics .nilDereference
        | some h =>
          match repo.References with
          | .error err => .returns ([], some err)
          | .ok refs =>
            match refs.ForEach (bytesOf "HEAD" ++ bytesOf h.hash) with
            | (_, some err) => .returns ([], some err)
            | (buf, none) => .returns (buf, none)

/-- The `RepositoryPool`, as far as `Checksum` reads it: the map `repositories`
(`none` where a key is absent, the `nil` interface value a Go map gives) and the
identifiers in insertion order. -/
structure RepositoryPool where
  repositories : String → Option repository
  idOrder : List String

/-- The `checksumable` struct. -/
structure checksumable where
  pool : RepositoryPool

/-- The loop of `Checksum` over `idOrder`; `hash` is what has been written to
the SHA-1 state so far. An error is an early `return "", err`. The `Write` of a
SHA-1 state returns no error, so the two tests on it never fire. -/
def Checksum.loop (pool : RepositoryPool) : List String → Bytes → Run (Except GoError Bytes)
  | [], hash => .returns (.ok hash)
  | id :: ids, hash =>
    -- repo := c.pool.repositories[id]; hash.Write([]byte(id))
    let hash1 := hash ++ bytesOf id
    match pool.repositories id with
    -- readChecksum(repo) calls r.FS() on the nil interface
    | none => .panics .nilDereference
    | some repo =>
      match readChecksum repo with
      | (_, some err) => .returns (.error err)
      | (bytes, none) =>
        -- hash.Write(bytes)
        let hash2 := hash1 ++ bytes
        match readRefs repo with
        | .panics p => .panics p
        | .returns (_, some err) => .returns (.error err)
        | .returns (bytes2, none) =>
          -- hash.Write(bytes)
          Checksum.loop pool ids (hash2 ++ bytes2)

/-- `checksumable.Checksum`; `sha1` is the SHA-1 digest of the bytes written
(`hash.Sum(nil)`) and `base64` is `base64.StdEncoding.EncodeToString`. -/
def Checksum (sha1 : Bytes → Bytes) (base64 : Bytes → String) (c : checksumable) :
    Run (String × Option GoError) :=
  match Checksum.loop c.pool c.pool.idOrder [] with
  | .panics p => .panics p
  | .returns (.error err) => .returns ("", some err)
  | .returns (.ok hash) => .returns (base64 (sha1 hash), none)

/-- The bytes `Checksum` digests when every read succeeds: for each identifier
in order, its bytes, then `packs id`, then `refs id`. -/
def digestInput (packs refs : String → Bytes) : List String → Bytes
  | [] => []
  | id :: ids => bytesOf id ++ packs id ++ refs id ++ digestInput packs refs ids

/-- Both reads of the repository `id` of the pool succeed. -/
def ReadsOk (pool : RepositoryPool) (id : String) : Prop :=
  ∃ repo b1 b2, pool.repositories id = some repo ∧ readChecksum repo = (b1, none) ∧
    readRefs repo = .returns (b2, none)

/-- A read of the repository `id` of the pool returns the error `e`: the
packfile read, or else the reference read after a packfile read that succeeded. -/
def ReadFails (pool : RepositoryPool) (id : String) (e : GoError) : Prop :=
  ∃ repo, pool.repositories id = some repo ∧
    ((∃ b, readChecksum repo = (b, some e)) ∨
     (∃ b1 b2, readChecksum repo = (b1, none) ∧ readRefs repo = .returns (b2, some e)))

/-- The repository `id` is in the pool and reading its references does not panic. -/
def ReadsSafely (pool : RepositoryPool) (id : String) : Prop :=
  ∃ repo, pool.repositories id = some repo ∧ ∀ p, readRefs repo ≠ .panics p

/-- A pool of one repository. -/
def singlePool (id : String) (r : repository) : RepositoryPool :=
  { repositories := fun j => if j = id then some r else none, idOrder := [id] }

/-- A repository with one packfile and a resolved HEAD. -/
def exampleRepository : repository :=
  { FS := none,
    packfiles := .ok [{ objectPack := none, seek := none, readFull := .ok [1, 2, 3],
                        close := none }],
    Repo := .ok { Head := .ok { name := "refs/heads/master", hash := "aa" },
                  References := .ok { refs := [{ name := "refs/heads/master", hash := "aa" }],
                                      err := none } } }

/-- A repository in which no branch has a commit yet: `Head()` gives
`plumbing.ErrReferenceNotFound`, and there is no reference and no packfile. -/
def unbornRepository : repository :=
  { FS := none,
    packfiles := .ok [],
    Repo := .ok { Head := .error .ErrReferenceNotFound,
                  References := .ok { refs := [], err := none } } }

/-- A directory that holds no git repository: `Repo()` gives
`git.ErrRepositoryNotExists`, and there is no packfile. -/
def emptyRepository : repository :=
  { FS := none, packfiles := .ok [], Repo := .error .ErrRepositoryNotExists }

/-- A repository whose packfile cannot be opened. -/
def brokenRepository : repository :=
  { FS := none,
    packfiles := .ok [{ objectPack := some (.other "permission denied"), seek := none,
                        readFull := .ok [], close := none }],
    Repo := .error .ErrRepositoryNotExists }

/-- A pool of two repositories, the second with a packfile that cannot be opened. -/
def examplePool : RepositoryPool :=
  { repositories := fun j =>
      if j = "a" then some exampleRepository
      else if j = "b" then some brokenRepository
      else none,
    idOrder := ["a", "b"] }

/-- A pool of two repositories: the first has no commit yet, the second has a
packfile that cannot be opened. -/
def crashingPool : RepositoryPool :=
  { repositories := fun j =>
      if j = "a" then some unbornRepository
      else if j = "b" then some brokenRepository
      else none,
    idOrder := ["a", "b"] }

/-- A stand-in for the SHA-1 digest in examples. -/
def exampleSha1 : Bytes → Bytes := fun b => b.reverse

/-- A stand-in for the base64 encoding in examples. -/
def exampleBase64 : Bytes → String := fun b => String.join (b.map fun x => toString x.toNat)

namespace Function

/-! ## `internal/function/blame.go` -/

/-- An `object.File`: only its `Name` is read by the generator. -/
structure File where
  Name : String
  deriving DecidableEq, Repr

/-- A `git.Line` of a blame result: the generator reads `Author` and `Text`. -/
structure Line where
  Author : String
  Text : String
  deriving DecidableEq, Repr

/-- The `BlameLine` record, one per output row. -/
structure BlameLine where
  File : String
  LineNum : Int
  Author : String
  Text : String
  deriving DecidableEq, Repr

/-- An `object.FileIter`: the files it has still to yield, and two counters of
the calls it has received (kept to state how often the generator calls it). -/
structure FileIter where
  pending : List File
  nextCalls : Nat
  closeCalls : Nat
  deriving DecidableEq, Repr

/-- A file iterator over `files` on which nothing has been called yet. -/
def FileIter.fresh (files : List File) : FileIter :=
  { pending := files, nextCalls := 0, closeCalls := 0 }

/-- `FileIter.Next`: the next file, or `io.EOF` when none is left. -/
def FileIter.Next (it : FileIter) : Except GoError File × FileIter :=
  match it.pending with
  | [] => (.error .EOF, { it with nextCalls := it.nextCalls + 1 })
  | f :: rest => (.ok f, { it with pending := rest, nextCalls := it.nextCalls + 1 })

/-- `FileIter.Close`: releases the walker; the iterator yields nothing afterwards. -/
def FileIter.Close (it : FileIter) : FileIter :=
  { it with pending := [], closeCalls := it.closeCalls + 1 }

/-- The `sql.Context` as far as this code uses it: the session warnings. -/
structure Context where
  warnings : List String
  deriving DecidableEq, Repr

/-- `ctx.Warn(0, msg)`: appends one warning. -/
def Context.Warn (ctx : Context) (msg : String) : Context :=
  { ctx with warnings := ctx.warnings ++ [msg] }

/-- An `object.Commit`: its hash, and the paths `git.Blame` has been called on
for it (kept to state how often the generator calls the blame computation). -/
structure Commit where
  hash : String
  blamed : List String
  deriving DecidableEq, Repr

/-- The blame computation of go-git for one commit: for each path, the lines of
the result or an error. -/
abbrev BlameFn := String → Except GoError (List Line)

/-- `git.Blame(commit, path)`: the result for `path`, recording the call. -/
def gitBlame (blame : BlameFn) (c : Commit) (path : String) :
    Except GoError (List Line) × Commit :=
  (blame path, { c with blamed := c.blamed ++ [path] })

/-- The `BlameGenerator` struct. -/
structure BlameGenerator where
  ctx : Context
  commit : Commit
  fIter : FileIter
  curLine : Int
  curFile : Option File
  lines : List Line
  deriving DecidableEq, Repr

/-- `NewBlameGenerator`. -/
def NewBlameGenerator (ctx : Context) (c : Commit) (f : FileIter) :
    BlameGenerator × Option GoError :=
  ({ ctx := ctx, commit := c, fIter := f, curLine := -1, curFile := none, lines := [] }, none)

/-- The warning text of `loadNewFile`: `"Error in BLAME for file %s: %s"`. -/
def blameWarning (name : String) (err : GoError) : String :=
  "Error in BLAME for file " ++ name ++ ": " ++ err.Error

/-- `loadNewFile`, with the depth of its recursion bounded by the first
argument. Each recursive call follows a successful `fIter.Next()`, so a bound
above the number of pending files is never reached (`loadNewFile` below). -/
def loadNewFileFuel (blame : BlameFn) : Nat → BlameGenerator → Option GoError × BlameGenerator
  | 0, g => (some .EOF, g)
  | n + 1, g =>
    -- g.curFile, err = g.fIter.Next()
    match g.fIter.Next with
    | (.error err, it) => (some err, { g with curFile := none, fIter := it })
    | (.ok f, it) =>
      -- result, err := git.Blame(g.commit, g.curFile.Name)
      match gitBlame blame g.commit f.Name with
      | (.error err, c) =>
        (some .EOF,
         { g with curFile := some f, fIter := it, commit := c,
                  ctx := g.ctx.Warn (blameWarning f.Name err) })
      | (.ok lines, c) =>
        if lines.length = 0 then
          loadNewFileFuel blame n { g with curFile := some f, fIter := it, commit := c }
        else
          (none, { g with curFile := some f, fIter := it, commit := c,
                          lines := lines, curLine := 0 })

/-- `BlameGenerator.loadNewFile`. -/
def loadNewFile (blame : BlameFn) (g : BlameGenerator) : Option GoError × BlameGenerator :=
  loadNewFileFuel blame (g.fIter.pending.length + 1) g

/-- The first statement of `Next`: load a file when no line is pending. -/
def Next.load (blame : BlameFn) (g : BlameGenerator) : Option GoError × BlameGenerator :=
  if g.curLine = -1 ∨ g.curLine ≥ g.lines.length then loadNewFile blame g else (none, g)

/-- The rest of `Next`: read `g.lines[g.curLine]`, build the record, advance. -/
def Next.emit (g : BlameGenerator) : Run ((Option BlameLine × Option GoError) × BlameGenerator) :=
  if g.curLine < 0 then .panics .indexOutOfRange
  else
    match g.lines[g.curLine.toNat]? with
    | none => .panics .indexOutOfRange
    | some l =>
      match g.curFile with
      | none => .panics .nilDereference
      | some f =>
        .returns
          ((some { File := f.Name, LineNum := g.curLine, Author := l.Author, Text := l.Text },
            none),
           { g with curLine := g.curLine + 1 })

/-- `BlameGenerator.Next`. -/
def Next (blame : BlameFn) (g : BlameGenerator) :
    Run ((Option BlameLine × Option GoError) × BlameGenerator) :=
  match Next.load blame g with
  | (some err, g1) => .returns ((none, some err), g1)
  | (none, g1) => Next.emit g1

/-- `BlameGenerator.Close`. -/
def Close (g : BlameGenerator) : Option GoError × BlameGenerator :=
  (none, { g with fIter := g.fIter.Close })

/-- A consumer of the generator: calls `Next` until it returns an error
(`io.EOF` is the end of the sequence), at most `fuel` times. The result is the
records received, the error that ended the loop (`none` when `fuel` calls all
returned a record), and the generator afterwards. -/
def pull (blame : BlameFn) :
    Nat → BlameGenerator → Run (List BlameLine × Option GoError × BlameGenerator)
  | 0, g => .returns ([], none, g)
  | n + 1, g =>
    match Next blame g with
    | .panics p => .panics p
    | .returns ((_, some err), g1) => .returns ([], some err, g1)
    | .returns ((none, none), g1) => .returns ([], none, g1)
    | .returns ((some b, none), g1) =>
      match pull blame n g1 with
      | .panics p => .panics p
      | .returns (bs, e, g2) => .returns (b :: bs, e, g2)

/-- The records of the lines `ls` of file `name`, the first of them being line `k`. -/
def fileRecordsFrom (name : String) : Nat → List Line → List BlameLine
  | _, [] => []
  | k, l :: ls =>
    { File := name, LineNum := (k : Int), Author := l.Author, Text := l.Text } ::
      fileRecordsFrom name (k + 1) ls

/-- The records of one file: line `i` of `ls` becomes the record numbered `i`. -/
def fileRecords (name : String) (ls : List Line) : List BlameLine :=
  fileRecordsFrom name 0 ls

/-- Puts the records `bs` in front of those a consumer loop returns. -/
def consRecords (bs : List BlameLine) :
    Run (List BlameLine × Option GoError × BlameGenerator) →
    Run (List BlameLine × Option GoError × BlameGenerator)
  | .panics p => .panics p
  | .returns (cs, e, g) => .returns (bs ++ cs, e, g)

/-- A generator is at a file boundary when `Next` has to load a file. -/
def AtBoundary (g : BlameGenerator) : Prop :=
  g.curLine = -1 ∨ g.curLine ≥ g.lines.length

/-- The file sequence of a commit given as `(name, lines)` pairs. -/
def filesOf : List (String × List Line) → List File
  | [] => []
  | p :: ps => { Name := p.1 } :: filesOf ps

/-- All records of a sequence of `(name, lines)` pairs, file after file. -/
def recordsOf : List (String × List Line) → List BlameLine
  | [] => []
  | p :: ps => fileRecords p.1 p.2 ++ recordsOf ps

/-- The sum of the line counts of a sequence of `(name, lines)` pairs. -/
def lineCount : List (String × List Line) → Nat
  | [] => 0
  | p :: ps => p.2.length + lineCount ps

/-- The cursor invariant of the generator. -/
def Inv (g : BlameGenerator) : Prop :=
  (g.curLine = -1 ∨ (0 ≤ g.curLine ∧ g.curLine ≤ (g.lines.length : Int))) ∧
  (0 ≤ g.curLine → g.curLine < (g.lines.length : Int) → g.curFile.isSome = true)

/-- The two operations a caller has on a generator. -/
inductive Op where
  | next
  | close
  deriving DecidableEq, Repr

/-- Runs a sequence of `Next` and `Close` calls on a generator, in order; the
result is what each call returned, and the generator afterwards. -/
def run (blame : BlameFn) :
    List Op → BlameGenerator → Run (List (Option BlameLine × Option GoError) × BlameGenerator)
  | [], g => .returns ([], g)
  | .next :: ops, g =>
    match Next blame g with
    | .panics p => .panics p
    | .returns (r, g1) =>
      match run blame ops g1 with
      | .panics p => .panics p
      | .returns (rs, g2) => .returns (r :: rs, g2)
  | .close :: ops, g =>
    match run blame ops (Close g).2 with
    | .panics p => .panics p
    | .returns (rs, g2) => .returns ((none, (Close g).1) :: rs, g2)

/-- What a call answers once the sequence has ended: `Next` gives `io.EOF`,
`Close` gives no error. -/
def Op.endAnswer : Op → Option BlameLine × Option GoError
  | .next => (none, some .EOF)
  | .close => (none, none)

/-! ### `Blame.Eval` -/

/-- A `sql.Row`. -/
abbrev Row := List String

/-- A `plumbing.Hash`, in its string form. -/
abbrev Hash := String

/-- An `*object.Commit` found in a repository, with the outcome of `commit.Files()`. -/
structure CommitObject where
  commit : Commit
  Files : Except GoError FileIter

/-- A `*gitbase.Repository`, as the outcomes of the calls `resolveCommit` makes on it. -/
structure Repository where
  /-- `repo.ResolveRevision(plumbing.Revision(str))` -/
  ResolveRevision : String → Except GoError Hash
  /-- `repo.CommitObject(hash)` -/
  CommitObject : Hash → Except GoError CommitObject

/-- What the evaluation of a row reads besides the row: the pool of the session
(`none` when `ctx.Session` is not a `*gitbase.Session`), by its `GetRepo`, and
`plumbing.NewHash`. -/
structure Session where
  Pool : Option (String → Except GoError Repository)
  NewHash : String → Hash

/-- The `Blame` struct: each of its two expressions is given by what
`exprToString(ctx, e, row)` returns for it. -/
structure Blame where
  repo : Row → Except GoError String
  commit : Row → Except GoError String

/-- `gitbase.ErrInvalidGitbaseSession.New(ctx.Session)`. -/
def ErrInvalidGitbaseSession : GoError := .other "expecting gitbase session"

/-- `Blame.resolveRepo`: a repository, or an error. -/
def Blame.resolveRepo (b : Blame) (s : Session) (r : Row) : Except GoError Repository :=
  match b.repo r with
  | .error err => .error err
  | .ok repoID =>
    match s.Pool with
    | none => .error ErrInvalidGitbaseSession
    | some getRepo => getRepo repoID

/-- `Blame.resolveCommit`: a commit, or an error. -/
def Blame.resolveCommit (b : Blame) (s : Session) (repo : Repository) (row : Row) :
    Except GoError CommitObject :=
  match b.commit row with
  | .error err => .error err
  | .ok str =>
    let commitHash : Hash :=
      match repo.ResolveRevision str with
      | .error _ => s.NewHash str
      | .ok h => h
    match repo.CommitObject commitHash with
    | .error err => .error err
    | .ok found => .ok found

/-- `Blame.Eval`: the pair it returns, and the context afterwards. -/
def Blame.Eval (b : Blame) (s : Session) (ctx : Context) (row : Row) :
    (Option BlameGenerator × Option GoError) × Context :=
  match b.resolveRepo s row with
  | .error err => ((none, none), ctx.Warn err.Error)
  | .ok repo =>
    match b.resolveCommit s repo row with
    | .error err => ((none, none), ctx.Warn err.Error)
    | .ok commit =>
      match commit.Files with
      | .error err => ((none, some err), ctx)
      | .ok fIter =>
        match NewBlameGenerator ctx commit.commit fIter with
        | (_, some err) => ((none, some err), ctx)
        | (bg, none) => ((some bg, none), ctx)

/-- A repository in which no revision resolves and no commit is found. -/
def exampleRepo : Repository :=
  { ResolveRevision := fun _ => .error (.other "reference not found"),
    CommitObject := fun _ => .error (.other "object not found") }

/-- A session whose pool holds the repository `"repo"` only. -/
def exampleSession : Session :=
  { Pool := some fun id =>
      if id = "repo" then .ok exampleRepo else .error (.other "repository not found"),
    NewHash := fun str => str }

/-- The call `blame(repository_id, commit_hash)` on rows `[repository_id, commit_hash]`. -/
def exampleCall : Blame :=
  { repo := fun row => .ok (row.getD 0 ""), commit := fun row => .ok (row.getD 1 "") }

/-! ### Example data -/

/-- Three files of a commit: `F1` with three lines, `F2` empty, `F3` with two lines. -/
def exampleContent : List (String × List Line) :=
  [("F1", [{ Author := "ann", Text := "a" }, { Author := "bob", Text := "b" },
           { Author := "ann", Text := "c" }]),
   ("F2", []),
   ("F3", [{ Author := "cid", Text := "d" }, { Author := "cid", Text := "e" }])]

/-- A blame computation that succeeds on the three files of `exampleContent`. -/
def exampleBlame : BlameFn := fun path =>
  if path = "F1" then
    .ok [{ Author := "ann", Text := "a" }, { Author := "bob", Text := "b" },
         { Author := "ann", Text := "c" }]
  else if path = "F2" then .ok []
  else if path = "F3" then .ok [{ Author := "cid", Text := "d" }, { Author := "cid", Text := "e" }]
  else .error (.other "file not found")

/-- The same blame computation, failing on `F1`. -/
def failingBlame : BlameFn := fun path =>
  if path = "F1" then .error (.other "binary file") else exampleBlame path

/-- A fresh generator over the files `F1`, `F2`, `F3`. -/
def exampleGenerator : BlameGenerator :=
  (NewBlameGenerator { warnings := [] } { hash := "c0", blamed := [] }
    (FileIter.fresh [{ Name := "F1" }, { Name := "F2" }, { Name := "F3" }])).1

end Function

end Gitbase


namespace Gitbase.Function

/-! ### `loadNewFile`: one equation per path through the source -/

theorem loadNewFileFuel_stable (blame : BlameFn) :
    ∀ (n m : Nat) (g : BlameGenerator),
      g.fIter.pending.length < n → g.fIter.pending.length < m →
      loadNewFileFuel blame n g = loadNewFileFuel blame m g := by
  intro n
  induction n with
  | zero => intro m g hn _; omega
  | succ n ih =>
    intro m g hn hm
    cases m with
    | zero => omega
    | succ m =>
      cases hp : g.fIter.pending with
      | nil => simp [loadNewFileFuel, FileIter.Next, hp]
      | cons f rest =>
        rw [hp] at hn hm
        simp only [List.length_cons] at hn hm
        simp only [loadNewFileFuel, FileIter.Next, hp, gitBlame]
        cases hb : blame f.Name with
        | error e => rfl
        | ok ls =>
          simp only
          split
          · apply ih
            · simp only; omega
            · simp only; omega
          · rfl

/-- File iterator exhausted: `io.EOF`, and `curFile` is now `nil`. -/
theorem loadNewFile_nil (blame : BlameFn) (g : BlameGenerator) (hp : g.fIter.pending = []) :
    loadNewFile blame g =
      (some .EOF,
       { g with curFile := none,
                fIter := { g.fIter with nextCalls := g.fIter.nextCalls + 1 } }) := by
  simp [loadNewFile, loadNewFileFuel, FileIter.Next, hp]

/-- Blame fails for the next file: one warning, and `io.EOF`. -/
theorem loadNewFile_error (blame : BlameFn) (g : BlameGenerator) (f : File) (rest : List File)
    (e : GoError) (hp : g.fIter.pending = f :: rest) (hb : blame f.Name = .error e) :
    loadNewFile blame g =
      (some .EOF,
       { g with curFile := some f,
                fIter := { g.fIter with pending := rest, nextCalls := g.fIter.nextCalls + 1 },
                commit := { g.commit with blamed := g.commit.blamed ++ [f.Name] },
                ctx := g.ctx.Warn (blameWarning f.Name e) }) := by
  simp [loadNewFile, loadNewFileFuel, FileIter.Next, hp, gitBlame, hb]

/-- Blame gives no line for the next file: `loadNewFile` is called again. -/
theorem loadNewFile_empty (blame : BlameFn) (g : BlameGenerator) (f : File) (rest : List File)
    (hp : g.fIter.pending = f :: rest) (hb : blame f.Name = .ok []) :
    loadNewFile blame g =
      loadNewFile blame
        { g with curFile := some f,
                 fIter := { g.fIter with pending := rest, nextCalls := g.fIter.nextCalls + 1 },
                 commit := { g.commit with blamed := g.commit.blamed ++ [f.Name] } } := by
  simp only [loadNewFile, loadNewFileFuel, FileIter.Next, hp, gitBlame, hb, List.length_cons,
    List.length_nil, if_true]

/-- Blame gives lines for the next file: they become the line buffer, cursor at 0. -/
theorem loadNewFile_lines (blame : BlameFn) (g : BlameGenerator) (f : File) (rest : List File)
    (ls : List Line) (hp : g.fIter.pending = f :: rest) (hb : blame f.Name = .ok ls)
    (hls : ls ≠ []) :
    loadNewFile blame g =
      (none,
       { g with curFile := some f,
                fIter := { g.fIter with pending := rest, nextCalls := g.fIter.nextCalls + 1 },
                commit := { g.commit with blamed := g.commit.blamed ++ [f.Name] },
                lines := ls, curLine := 0 }) := by
  have : ls.length ≠ 0 := by simpa using hls
  simp [loadNewFile, loadNewFileFuel, FileIter.Next, hp, gitBlame, hb, this]

end Gitbase.Function

namespace Gitbase.Function

/-! ### `Next`: the two ways through its first statement -/

theorem Next_load_boundary (blame : BlameFn) (g : BlameGenerator) (h : AtBoundary g) :
    Next.load blame g = loadNewFile blame g := by
  unfold Next.load
  exact if_pos h

theorem Next_load_inFile (blame : BlameFn) (g : BlameGenerator) (k : Nat)
    (hk : g.curLine = (k : Int)) (hlt : k < g.lines.length) :
    Next.load blame g = (none, g) := by
  unfold Next.load
  rw [if_neg]
  rw [hk]
  omega

theorem Next_emit_inFile (g : BlameGenerator) (k : Nat) (l : Line) (f : File)
    (hk : g.curLine = (k : Int)) (hl : g.lines[k]? = some l) (hf : g.curFile = some f) :
    Next.emit g =
      .returns
        ((some { File := f.Name, LineNum := (k : Int), Author := l.Author, Text := l.Text },
          none),
         { g with curLine := (k : Int) + 1 }) := by
  unfold Next.emit
  have h0 : ¬ (g.curLine < 0) := by rw [hk]; omega
  rw [if_neg h0]
  have ht : g.curLine.toNat = k := by rw [hk]; simp
  rw [ht, hl]
  simp only [hf, hk]

theorem Next_inFile (blame : BlameFn) (g : BlameGenerator) (k : Nat) (l : Line) (f : File)
    (hk : g.curLine = (k : Int)) (hl : g.lines[k]? = some l) (hf : g.curFile = some f) :
    Next blame g =
      .returns
        ((some { File := f.Name, LineNum := (k : Int), Author := l.Author, Text := l.Text },
          none),
         { g with curLine := (k : Int) + 1 }) := by
  have hlt : k < g.lines.length := by
    rcases List.getElem?_eq_some_iff.mp hl with ⟨h, _⟩
    exact h
  unfold Next
  rw [Next_load_inFile blame g k hk hlt]
  exact Next_emit_inFile g k l f hk hl hf

theorem Next_boundary (blame : BlameFn) (g : BlameGenerator) (h : AtBoundary g) :
    Next blame g =
      match loadNewFile blame g with
      | (some err, g1) => .returns ((none, some err), g1)
      | (none, g1) => Next.emit g1 := by
  unfold Next
  rw [Next_load_boundary blame g h]

/-- The consumer loop sees a generator only through `Next`. -/
theorem pull_congr (blame : BlameFn) (n : Nat) (g g2 : BlameGenerator)
    (h : Next blame g = Next blame g2) :
    pull blame (n + 1) g = pull blame (n + 1) g2 := by
  simp only [pull, h]

theorem consRecords_nil (r : Run (List BlameLine × Option GoError × BlameGenerator)) :
    consRecords [] r = r := by
  cases r with
  | panics p => rfl
  | returns a => obtain ⟨cs, e, g⟩ := a; simp [consRecords]

theorem consRecords_cons (b : BlameLine) (bs : List BlameLine)
    (r : Run (List BlameLine × Option GoError × BlameGenerator)) :
    consRecords (b :: bs) r = consRecords [b] (consRecords bs r) := by
  cases r with
  | panics p => rfl
  | returns a => obtain ⟨cs, e, g⟩ := a; simp [consRecords]

theorem consRecords_append (as bs : List BlameLine)
    (r : Run (List BlameLine × Option GoError × BlameGenerator)) :
    consRecords (as ++ bs) r = consRecords as (consRecords bs r) := by
  cases r with
  | panics p => rfl
  | returns a => obtain ⟨cs, e, g⟩ := a; simp [consRecords]

theorem pull_step (blame : BlameFn) (n : Nat) (g g1 : BlameGenerator) (b : BlameLine)
    (h : Next blame g = .returns ((some b, none), g1)) :
    pull blame (n + 1) g = consRecords [b] (pull blame n g1) := by
  simp only [pull, h]
  cases pull blame n g1 with
  | panics p => rfl
  | returns a => obtain ⟨cs, e, g2⟩ := a; simp [consRecords]

theorem pull_stop (blame : BlameFn) (n : Nat) (g g1 : BlameGenerator) (e : GoError)
    (h : Next blame g = .returns ((none, some e), g1)) :
    pull blame (n + 1) g = .returns ([], some e, g1) := by
  simp only [pull, h]

/-- Inside a file, the consumer receives the remaining lines of that file, one
per call, and is then at the end of the line buffer. -/
theorem pull_inFile (blame : BlameFn) (f : File) :
    ∀ (suf pre : List Line) (g : BlameGenerator) (m : Nat),
      g.lines = pre ++ suf → g.curLine = (pre.length : Int) → g.curFile = some f →
      pull blame (suf.length + m) g =
        consRecords (fileRecordsFrom f.Name pre.length suf)
          (pull blame m { g with curLine := ((pre ++ suf).length : Int) }) := by
  intro suf
  induction suf with
  | nil =>
    intro pre g m hl hc hf
    simp only [List.length_nil, Nat.zero_add, List.append_nil, fileRecordsFrom, consRecords_nil]
    rw [← hc]
  | cons l suf ih =>
    intro pre g m hl hc hf
    have hget : g.lines[pre.length]? = some l := by
      rw [hl, List.getElem?_append_right (le_refl _)]; simp
    have hfuel : (l :: suf).length + m = (suf.length + m) + 1 := by
      simp only [List.length_cons]; omega
    rw [hfuel, pull_step blame _ g _ _ (Next_inFile blame g pre.length l f hc hget hf)]
    have := ih (pre ++ [l]) { g with curLine := (pre.length : Int) + 1 } m
      (by simp [hl]) (by simp) hf
    rw [this]
    simp only [fileRecordsFrom, List.length_append, List.length_singleton, List.append_assoc,
      List.singleton_append, List.length_cons]
    conv_rhs => rw [consRecords_cons]
    simp only [List.length_nil, Nat.zero_add]

end Gitbase.Function

namespace Gitbase.Function

/-! ### Pulling across files -/

theorem fileRecordsFrom_length (name : String) :
    ∀ (ls : List Line) (k : Nat), (fileRecordsFrom name k ls).length = ls.length := by
  intro ls
  induction ls with
  | nil => intro k; rfl
  | cons l ls ih => intro k; simp [fileRecordsFrom, ih]

theorem fileRecordsFrom_getElem? (name : String) :
    ∀ (ls : List Line) (k i : Nat),
      (fileRecordsFrom name k ls)[i]? =
        ls[i]?.map fun l =>
          { File := name, LineNum := ((k + i : Nat) : Int), Author := l.Author, Text := l.Text } := by
  intro ls
  induction ls with
  | nil => intro k i; simp [fileRecordsFrom]
  | cons l ls ih =>
    intro k i
    cases i with
    | zero => simp [fileRecordsFrom]
    | succ i =>
      simp only [fileRecordsFrom, List.getElem?_cons_succ, ih]
      have : k + 1 + i = k + (i + 1) := by omega
      rw [this]

theorem recordsOf_length :
    ∀ content : List (String × List Line), (recordsOf content).length = lineCount content := by
  intro content
  induction content with
  | nil => rfl
  | cons p ps ih =>
    simp [recordsOf, lineCount, fileRecords, fileRecordsFrom_length, ih]

/-- From a file boundary, a consumer receives the records of the files whose
blame succeeds, and is then at a file boundary in front of the files after them;
no warning has been recorded and the iterator has not been closed. -/
theorem pull_boundary (blame : BlameFn) :
    ∀ (content : List (String × List Line)) (tail : List File) (g : BlameGenerator),
      (∀ p ∈ content, blame p.1 = .ok p.2) → AtBoundary g →
      g.fIter.pending = filesOf content ++ tail →
      ∃ g2 : BlameGenerator, AtBoundary g2 ∧ g2.fIter.pending = tail ∧ g2.ctx = g.ctx ∧
        g2.fIter.closeCalls = g.fIter.closeCalls ∧
        ∀ m : Nat, pull blame (lineCount content + (m + 1)) g =
          consRecords (recordsOf content) (pull blame (m + 1) g2) := by
  intro content
  induction content with
  | nil =>
    intro tail g _ hb hp
    refine ⟨g, hb, ?_, rfl, rfl, ?_⟩
    · simpa [filesOf] using hp
    · intro m
      simp only [lineCount, recordsOf, Nat.zero_add, consRecords_nil]
  | cons p ps ih =>
    intro tail g hok hb hp
    have hp1 : g.fIter.pending = { Name := p.1 } :: (filesOf ps ++ tail) := by
      simpa [filesOf] using hp
    have hbl : blame ({ Name := p.1 } : File).Name = .ok p.2 := hok p (List.mem_cons_self _ _)
    have hok2 : ∀ q ∈ ps, blame q.1 = .ok q.2 := fun q hq => hok q (List.mem_cons_of_mem _ hq)
    by_cases hls : p.2 = []
    · -- a file without lines: the load goes on to the next file
      rw [hls] at hbl
      have hload := loadNewFile_empty blame g _ _ hp1 hbl
      have hb2 : AtBoundary
          { g with curFile := some { Name := p.1 },
                   fIter := { g.fIter with pending := filesOf ps ++ tail,
                                           nextCalls := g.fIter.nextCalls + 1 },
                   commit := { g.commit with blamed := g.commit.blamed ++ [p.1] } } := hb
      obtain ⟨g2, h1, h2, h3, h4, h5⟩ := ih tail _ hok2 hb2 rfl
      refine ⟨g2, h1, h2, h3, h4, ?_⟩
      intro m
      have hn : Next blame g = Next blame
          { g with curFile := some { Name := p.1 },
                   fIter := { g.fIter with pending := filesOf ps ++ tail,
                                           nextCalls := g.fIter.nextCalls + 1 },
                   commit := { g.commit with blamed := g.commit.blamed ++ [p.1] } } := by
        rw [Next_boundary blame g hb, Next_boundary blame _ hb2, hload]
      have h5m := h5 m
      simp only [lineCount, recordsOf, hls, List.length_nil, Nat.zero_add, fileRecords,
        fileRecordsFrom, List.nil_append]
      rw [← h5m]
      exact pull_congr blame _ g _ hn
    · -- a file with lines: they are loaded, then handed out one by one
      have hload := loadNewFile_lines blame g _ _ p.2 hp1 hbl hls
      have hpos : 0 < p.2.length := List.length_pos.mpr hls
      obtain ⟨l0, hl0⟩ : ∃ l0, p.2[0]? = some l0 := ⟨p.2[0], by simp [hpos]⟩
      have hn : Next blame g = Next blame
          { g with curFile := some { Name := p.1 },
                   fIter := { g.fIter with pending := filesOf ps ++ tail,
                                           nextCalls := g.fIter.nextCalls + 1 },
                   commit := { g.commit with blamed := g.commit.blamed ++ [p.1] },
                   lines := p.2, curLine := 0 } := by
        rw [Next_boundary blame g hb, hload]
        simp only
        rw [Next_inFile blame _ 0 l0 { Name := p.1 } rfl hl0 rfl]
        exact Next_emit_inFile _ 0 l0 { Name := p.1 } rfl hl0 rfl
      have hb4 : AtBoundary
          { g with curFile := some { Name := p.1 },
                   fIter := { g.fIter with pending := filesOf ps ++ tail,
                                           nextCalls := g.fIter.nextCalls + 1 },
                   commit := { g.commit with blamed := g.commit.blamed ++ [p.1] },
                   lines := p.2, curLine := ((([] : List Line) ++ p.2).length : Int) } := by
        right
        simp
      obtain ⟨g2, h1, h2, h3, h4, h5⟩ := ih tail _ hok2 hb4 rfl
      refine ⟨g2, h1, h2, h3, h4, ?_⟩
      intro m
      obtain ⟨k, hk⟩ : ∃ k, lineCount (p :: ps) + (m + 1) = k + 1 := ⟨_, rfl⟩
      rw [hk, pull_congr blame k g _ hn, ← hk]
      have hsplit : lineCount (p :: ps) + (m + 1) = p.2.length + (lineCount ps + (m + 1)) := by
        simp only [lineCount]; omega
      rw [hsplit, pull_inFile blame { Name := p.1 } p.2 [] _ _ rfl rfl rfl]
      simp only [recordsOf, fileRecords, List.length_nil, consRecords_append]
      rw [← h5 m]

end Gitbase.Function

namespace Gitbase.Function

/-! ### What `loadNewFile` leaves behind -/

theorem loadNewFile_spec (blame : BlameFn) :
    ∀ (files : List File) (g : BlameGenerator), g.fIter.pending = files →
      (loadNewFile blame g).2.fIter.closeCalls = g.fIter.closeCalls ∧
      ((loadNewFile blame g).1 = none →
        (loadNewFile blame g).2.curLine = 0 ∧ 0 < (loadNewFile blame g).2.lines.length ∧
        (loadNewFile blame g).2.curFile.isSome = true) ∧
      (∀ e, (loadNewFile blame g).1 = some e →
        e = .EOF ∧ (loadNewFile blame g).2.curLine = g.curLine ∧
        (loadNewFile blame g).2.lines = g.lines) := by
  intro files
  induction files with
  | nil =>
    intro g hp
    rw [loadNewFile_nil blame g hp]
    simp
  | cons f rest ih =>
    intro g hp
    cases hb : blame f.Name with
    | error e =>
      rw [loadNewFile_error blame g f rest e hp hb]
      simp
    | ok ls =>
      by_cases hls : ls = []
      · rw [hls] at hb
        rw [loadNewFile_empty blame g f rest hp hb]
        exact ih _ rfl
      · rw [loadNewFile_lines blame g f rest ls hp hb hls]
        simp [List.length_pos, hls]

theorem Next_inv (blame : BlameFn) (g : BlameGenerator) (hi : Inv g) :
    ∃ r g1, Next blame g = .returns (r, g1) ∧ Inv g1 ∧
      g1.fIter.closeCalls = g.fIter.closeCalls := by
  by_cases hb : AtBoundary g
  · obtain ⟨hc, hn, he⟩ := loadNewFile_spec blame _ g rfl
    rw [Next_boundary blame g hb]
    rcases hload : loadNewFile blame g with ⟨e, g1⟩
    rw [hload] at hc hn he
    cases e with
    | none =>
      obtain ⟨h0, hlen, hf⟩ := hn rfl
      simp only at h0 hlen hf hc
      obtain ⟨f, hf⟩ := Option.isSome_iff_exists.mp hf
      obtain ⟨l, hl⟩ : ∃ l, g1.lines[0]? = some l := ⟨g1.lines[0], by simp [hlen]⟩
      have h0k : g1.curLine = ((0 : Nat) : Int) := by simpa using h0
      refine ⟨_, _, Next_emit_inFile g1 0 l f h0k hl hf, ?_, hc⟩
      constructor
      · right; simp only; omega
      · intro _ _; simp [hf]
    | some e =>
      obtain ⟨_, hcl, hll⟩ := he e rfl
      simp only at hcl hll hc
      refine ⟨_, _, rfl, ?_, hc⟩
      unfold AtBoundary at hb
      constructor
      · rw [hcl, hll]; exact hi.1
      · intro h1 h2
        rw [hcl, hll] at h2
        rw [hcl] at h1
        omega
  · unfold AtBoundary at hb
    have h0 : 0 ≤ g.curLine := by
      rcases hi.1 with h | h
      · exact absurd (Or.inl h) hb
      · exact h.1
    have hlt : g.curLine < (g.lines.length : Int) := by
      by_contra hge
      exact hb (Or.inr (by omega))
    obtain ⟨k, hk⟩ : ∃ k : Nat, g.curLine = (k : Int) := ⟨g.curLine.toNat, by omega⟩
    have hkl : k < g.lines.length := by omega
    obtain ⟨f, hf⟩ := Option.isSome_iff_exists.mp (hi.2 h0 hlt)
    refine ⟨_, _, Next_inFile blame g k g.lines[k] f hk (by simp [hkl]) hf, ?_, rfl⟩
    constructor
    · right; simp only; omega
    · intro _ _; simp [hf]

theorem Close_inv (g : BlameGenerator) (hi : Inv g) : Inv (Close g).2 := hi

theorem New_inv (ctx : Context) (c : Commit) (f : FileIter) :
    Inv (NewBlameGenerator ctx c f).1 := by
  constructor
  · left; rfl
  · intro h; simp [NewBlameGenerator] at h

end Gitbase.Function

namespace Gitbase.Function

/-! ### Sequences of calls -/

theorem Next_load_inv (blame : BlameFn) (g g1 : BlameGenerator) (hi : Inv g)
    (h : Next.load blame g = (none, g1)) :
    0 ≤ g1.curLine ∧ g1.curLine < (g1.lines.length : Int) ∧ g1.curFile.isSome = true := by
  by_cases hb : AtBoundary g
  · rw [Next_load_boundary blame g hb] at h
    obtain ⟨_, hn, _⟩ := loadNewFile_spec blame _ g rfl
    rw [h] at hn
    obtain ⟨h0, hlen, hf⟩ := hn rfl
    simp only at h0 hlen hf
    refine ⟨by omega, by omega, hf⟩
  · have hg : g1 = g := by
      have hb2 : ¬ (g.curLine = -1 ∨ g.curLine ≥ (g.lines.length : Int)) := hb
      unfold Next.load at h
      rw [if_neg hb2] at h
      exact (Prod.mk.inj h).2.symm
    unfold AtBoundary at hb
    have h0 : 0 ≤ g.curLine := by
      rcases hi.1 with h | h
      · exact absurd (Or.inl h) hb
      · exact h.1
    have hlt : g.curLine < (g.lines.length : Int) := by
      by_contra hge
      exact hb (Or.inr (by omega))
    rw [hg]
    exact ⟨h0, hlt, hi.2 h0 hlt⟩

theorem Next_emit_no_error (g : BlameGenerator) (v : Option BlameLine) (e : GoError)
    (g1 : BlameGenerator) : Next.emit g ≠ .returns ((v, some e), g1) := by
  unfold Next.emit
  intro h
  split at h
  · cases h
  · split at h
    · cases h
    · split at h
      · cases h
      · cases h

/-- `Next` returns an error only out of `loadNewFile`, called at a file boundary. -/
theorem Next_error (blame : BlameFn) (g g1 : BlameGenerator) (v : Option BlameLine)
    (e : GoError) (h : Next blame g = .returns ((v, some e), g1)) :
    AtBoundary g ∧ loadNewFile blame g = (some e, g1) ∧ v = none := by
  by_cases hb : AtBoundary g
  · rw [Next_boundary blame g hb] at h
    rcases hload : loadNewFile blame g with ⟨e2, g2⟩
    rw [hload] at h
    cases e2 with
    | none => exact absurd h (Next_emit_no_error g2 v e g1)
    | some e2 =>
      simp only [Run.returns.injEq, Prod.mk.injEq, Option.some.injEq] at h
      obtain ⟨⟨hv, he⟩, hg⟩ := h
      refine ⟨hb, ?_, hv.symm⟩
      rw [he, hg]
  · exfalso
    have hb2 : ¬ (g.curLine = -1 ∨ g.curLine ≥ (g.lines.length : Int)) := hb
    unfold Next Next.load at h
    rw [if_neg hb2] at h
    exact Next_emit_no_error g v e g1 h

/-- With the file iterator exhausted, `Next` answers `io.EOF`, calls the file
iterator once and the blame computation not at all. -/
theorem Next_exhausted (blame : BlameFn) (g : BlameGenerator) (hb : AtBoundary g)
    (hp : g.fIter.pending = []) :
    Next blame g =
      .returns ((none, some .EOF),
        { g with curFile := none,
                 fIter := { g.fIter with nextCalls := g.fIter.nextCalls + 1 } }) := by
  rw [Next_boundary blame g hb, loadNewFile_nil blame g hp]

theorem run_exhausted (blame : BlameFn) :
    ∀ (ops : List Op) (g : BlameGenerator), AtBoundary g → g.fIter.pending = [] →
      ∃ g2, run blame ops g = .returns (ops.map Op.endAnswer, g2) ∧
        g2.commit = g.commit ∧ g2.ctx = g.ctx ∧
        g2.fIter.nextCalls = g.fIter.nextCalls + ops.count Op.next := by
  intro ops
  induction ops with
  | nil => intro g _ _; exact ⟨g, rfl, rfl, rfl, rfl⟩
  | cons op ops ih =>
    intro g hb hp
    cases op with
    | next =>
      obtain ⟨g2, h1, h2, h3, h4⟩ := ih
        { g with curFile := none,
                 fIter := { g.fIter with nextCalls := g.fIter.nextCalls + 1 } } hb hp
      refine ⟨g2, ?_, h2, h3, ?_⟩
      · simp only [run, Next_exhausted blame g hb hp, h1, List.map_cons, Op.endAnswer]
      · rw [h4]; simp only [List.count_cons_self]; omega
    | close =>
      obtain ⟨g2, h1, h2, h3, h4⟩ := ih (Close g).2 hb rfl
      refine ⟨g2, ?_, h2, h3, ?_⟩
      · rw [run, h1]
        rfl
      · rw [h4]
        have : List.count Op.next (Op.close :: ops) = List.count Op.next ops := by
          rw [List.count_cons_of_ne (by decide)]
        rw [this]
        rfl

theorem run_inv (blame : BlameFn) :
    ∀ (ops : List Op) (g : BlameGenerator), Inv g →
      ∃ rs g2, run blame ops g = .returns (rs, g2) ∧ Inv g2 ∧
        g2.fIter.closeCalls = g.fIter.closeCalls + ops.count Op.close ∧
        rs.length = ops.length ∧
        ∀ i : Nat, ops[i]? = some Op.close → rs[i]? = some (none, none) := by
  intro ops
  induction ops with
  | nil =>
    intro g hi
    exact ⟨[], g, rfl, hi, rfl, rfl, by intro i h; simp at h⟩
  | cons op ops ih =>
    intro g hi
    cases op with
    | next =>
      obtain ⟨r, g1, hn, hi1, hc1⟩ := Next_inv blame g hi
      obtain ⟨rs, g2, h1, h2, h3, h4, h5⟩ := ih g1 hi1
      refine ⟨r :: rs, g2, ?_, h2, ?_, ?_, ?_⟩
      · simp only [run, hn, h1]
      · rw [h3, hc1, List.count_cons_of_ne (by decide)]
      · simp [h4]
      · intro i hop
        cases i with
        | zero => simp at hop
        | succ i =>
          simp only [List.getElem?_cons_succ] at hop ⊢
          exact h5 i hop
    | close =>
      obtain ⟨rs, g2, h1, h2, h3, h4, h5⟩ := ih (Close g).2 (Close_inv g hi)
      refine ⟨(none, none) :: rs, g2, ?_, h2, ?_, ?_, ?_⟩
      · rw [run, h1]
        rfl
      · rw [h3, List.count_cons_self]
        simp only [Close, FileIter.Close]
        omega
      · simp [h4]
      · intro i hop
        cases i with
        | zero => simp
        | succ i =>
          simp only [List.getElem?_cons_succ] at hop ⊢
          exact h5 i hop

end Gitbase.Function

namespace Gitbase.Function

/-! ### The blame generator: results -/

/-- C1: when blame succeeds for every file of the sequence, a consumer calling
`Next` on a fresh generator until the first error receives, in file order, one
record per line of every file, the record of line `i` of a file carrying the
file name, `i`, and the author and text of that line; files without lines give
no record; the loop ends with `io.EOF` after as many records as the files have
lines in total. -/
theorem pull_yields_every_line (blame : BlameFn) (ctx : Context) (c : Commit)
    (content : List (String × List Line)) (h : ∀ p ∈ content, blame p.1 = .ok p.2) :
    (∃ g, g.fIter.pending = [] ∧ g.ctx = ctx ∧
      ∀ fuel, lineCount content < fuel →
        pull blame fuel (NewBlameGenerator ctx c (FileIter.fresh (filesOf content))).1 =
          .returns (recordsOf content, some .EOF, g)) ∧
    (recordsOf content).length = lineCount content ∧
    (∀ (name : String) (ls : List Line) (i : Nat),
      (fileRecords name ls)[i]? =
        ls[i]?.map fun l =>
          { File := name, LineNum := (i : Int), Author := l.Author, Text := l.Text }) := by
  refine ⟨?_, recordsOf_length content, ?_⟩
  · obtain ⟨g2, hb2, hp2, hctx, _, hpull⟩ :=
      pull_boundary blame content []
        (NewBlameGenerator ctx c (FileIter.fresh (filesOf content))).1 h (Or.inl rfl)
        (by simp [NewBlameGenerator, FileIter.fresh])
    refine ⟨{ g2 with curFile := none,
                      fIter := { g2.fIter with nextCalls := g2.fIter.nextCalls + 1 } },
      hp2, hctx, ?_⟩
    intro fuel hfuel
    obtain ⟨m, rfl⟩ : ∃ m, fuel = lineCount content + (m + 1) :=
      ⟨fuel - lineCount content - 1, by omega⟩
    rw [hpull m, pull_stop blame m g2 _ .EOF (Next_exhausted blame g2 hb2 hp2)]
    simp only [consRecords, List.append_nil]
  · intro name ls i
    have := fileRecordsFrom_getElem? name ls 0 i
    simpa [fileRecords] using this

/-- Witness for C1: the files `F1` (3 lines), `F2` (no line), `F3` (2 lines). -/
theorem pull_yields_every_line_witness :
    (∀ p ∈ exampleContent, exampleBlame p.1 = .ok p.2) ∧
    ((∃ g, g.fIter.pending = [] ∧ g.ctx = { warnings := [] } ∧
      ∀ fuel, lineCount exampleContent < fuel →
        pull exampleBlame fuel
            (NewBlameGenerator { warnings := [] } { hash := "c0", blamed := [] }
              (FileIter.fresh (filesOf exampleContent))).1 =
          .returns (recordsOf exampleContent, some .EOF, g)) ∧
    (recordsOf exampleContent).length = lineCount exampleContent ∧
    (∀ (name : String) (ls : List Line) (i : Nat),
      (fileRecords name ls)[i]? =
        ls[i]?.map fun l =>
          { File := name, LineNum := (i : Int), Author := l.Author, Text := l.Text })) :=
  have hyp : ∀ p ∈ exampleContent, exampleBlame p.1 = .ok p.2 := by
    intro p hp
    simp only [exampleContent, List.mem_cons, List.mem_singleton, List.not_mem_nil,
      or_false] at hp
    rcases hp with rfl | rfl | rfl <;> rfl
  ⟨hyp, pull_yields_every_line exampleBlame { warnings := [] } { hash := "c0", blamed := [] }
    exampleContent hyp⟩

/-- C2, as stated, fails: with blame failing for `F1` and succeeding for `F2`
and `F3`, the `Next` call that meets `F1` returns `io.EOF`, and a consumer
pulling until the first `io.EOF` receives no line of `F3`. -/
theorem blame_failure_counterexample :
    failingBlame "F3" = .ok [{ Author := "cid", Text := "d" }, { Author := "cid", Text := "e" }] ∧
    Next failingBlame exampleGenerator =
      .returns ((none, some .EOF),
        { ctx := { warnings := ["Error in BLAME for file F1: binary file"] },
          commit := { hash := "c0", blamed := ["F1"] },
          fIter := { pending := [{ Name := "F2" }, { Name := "F3" }], nextCalls := 1,
                     closeCalls := 0 },
          curLine := -1, curFile := some { Name := "F1" }, lines := [] }) ∧
    pull failingBlame 10 exampleGenerator =
      .returns ([], some .EOF,
        { ctx := { warnings := ["Error in BLAME for file F1: binary file"] },
          commit := { hash := "c0", blamed := ["F1"] },
          fIter := { pending := [{ Name := "F2" }, { Name := "F3" }], nextCalls := 1,
                     closeCalls := 0 },
          curLine := -1, curFile := some { Name := "F1" }, lines := [] }) :=
  ⟨rfl, rfl, rfl⟩

/-- C2, amended: when blame fails for a file, the `Next` call that meets it
records exactly one warning, for that file, and returns `io.EOF` (no other
error); a consumer pulling until the first `io.EOF` has then received exactly
the lines of the files before the failing one, and the files after it are still
pending in the file iterator. -/
theorem blame_failure_ends_sequence (blame : BlameFn) (ctx : Context) (c : Commit)
    (content : List (String × List Line)) (bad : File) (post : List File) (e : GoError)
    (h : ∀ p ∈ content, blame p.1 = .ok p.2) (hbad : blame bad.Name = .error e) :
    (∀ g0, AtBoundary g0 → g0.fIter.pending = bad :: post →
      ∃ g1, Next blame g0 = .returns ((none, some .EOF), g1) ∧
        g1.ctx.warnings = g0.ctx.warnings ++ [blameWarning bad.Name e] ∧
        g1.fIter.pending = post) ∧
    (∃ g, g.ctx.warnings = ctx.warnings ++ [blameWarning bad.Name e] ∧
      g.fIter.pending = post ∧
      ∀ fuel, lineCount content < fuel →
        pull blame fuel
            (NewBlameGenerator ctx c (FileIter.fresh (filesOf content ++ bad :: post))).1 =
          .returns (recordsOf content, some .EOF, g)) := by
  have hnext : ∀ g0, AtBoundary g0 → g0.fIter.pending = bad :: post →
      Next blame g0 = .returns ((none, some .EOF),
        { g0 with curFile := some bad,
                  fIter := { g0.fIter with pending := post,
                                           nextCalls := g0.fIter.nextCalls + 1 },
                  commit := { g0.commit with blamed := g0.commit.blamed ++ [bad.Name] },
                  ctx := g0.ctx.Warn (blameWarning bad.Name e) }) := by
    intro g0 hb hp
    rw [Next_boundary blame g0 hb, loadNewFile_error blame g0 bad post e hp hbad]
  constructor
  · intro g0 hb hp
    exact ⟨_, hnext g0 hb hp, rfl, rfl⟩
  · obtain ⟨g2, hb2, hp2, hctx, _, hpull⟩ :=
      pull_boundary blame content (bad :: post)
        (NewBlameGenerator ctx c (FileIter.fresh (filesOf content ++ bad :: post))).1 h
        (Or.inl rfl) (by simp [NewBlameGenerator, FileIter.fresh])
    refine ⟨{ g2 with curFile := some bad,
                      fIter := { g2.fIter with pending := post,
                                               nextCalls := g2.fIter.nextCalls + 1 },
                      commit := { g2.commit with blamed := g2.commit.blamed ++ [bad.Name] },
                      ctx := g2.ctx.Warn (blameWarning bad.Name e) }, ?_, rfl, ?_⟩
    · simp only [Context.Warn, hctx]
      rfl
    · intro fuel hfuel
      obtain ⟨m, rfl⟩ : ∃ m, fuel = lineCount content + (m + 1) :=
        ⟨fuel - lineCount content - 1, by omega⟩
      rw [hpull m, pull_stop blame m g2 _ .EOF (hnext g2 hb2 hp2)]
      simp only [consRecords, List.append_nil]

/-- Witness for the amended C2: blame fails for `F1`, the first file. -/
theorem blame_failure_ends_sequence_witness :
    (∀ g0, AtBoundary g0 → g0.fIter.pending = [{ Name := "F1" }, { Name := "F2" }] →
      ∃ g1, Next failingBlame g0 = .returns ((none, some .EOF), g1) ∧
        g1.ctx.warnings =
          g0.ctx.warnings ++ [blameWarning (File.mk "F1").Name (.other "binary file")] ∧
        g1.fIter.pending = [{ Name := "F2" }]) ∧
    (∃ g, g.ctx.warnings =
        ([] : List String) ++ [blameWarning (File.mk "F1").Name (.other "binary file")] ∧
      g.fIter.pending = [{ Name := "F2" }] ∧
      ∀ fuel, lineCount [] < fuel →
        pull failingBlame fuel
            (NewBlameGenerator { warnings := [] } { hash := "c0", blamed := [] }
              (FileIter.fresh (filesOf [] ++ { Name := "F1" } :: [{ Name := "F2" }]))).1 =
          .returns (recordsOf [], some .EOF, g)) :=
  blame_failure_ends_sequence failingBlame { warnings := [] } { hash := "c0", blamed := [] }
    [] { Name := "F1" } [{ Name := "F2" }] (.other "binary file")
    (by intro p hp; cases hp) rfl

end Gitbase.Function

namespace Gitbase.Function

/-- C6, as stated, fails: after blame has failed for `F1`, the first `Next`
returns `io.EOF` and the second returns a record of `F3`; and on a generator
without files the second `Next`, made after `io.EOF`, calls the file iterator
again (two `Next` calls received). -/
theorem exhausted_counterexample :
    run failingBlame [.next, .next] exampleGenerator =
      .returns
        ([(none, some .EOF),
          (some { File := "F3", LineNum := 0, Author := "cid", Text := "d" }, none)],
         { ctx := { warnings := ["Error in BLAME for file F1: binary file"] },
           commit := { hash := "c0", blamed := ["F1", "F2", "F3"] },
           fIter := { pending := [], nextCalls := 3, closeCalls := 0 },
           curLine := 1, curFile := some { Name := "F3" },
           lines := [{ Author := "cid", Text := "d" }, { Author := "cid", Text := "e" }] }) ∧
    run exampleBlame [.next, .next]
        (NewBlameGenerator { warnings := [] } { hash := "c0", blamed := [] }
          (FileIter.fresh [])).1 =
      .returns
        ([(none, some .EOF), (none, some .EOF)],
         { ctx := { warnings := [] }, commit := { hash := "c0", blamed := [] },
           fIter := { pending := [], nextCalls := 2, closeCalls := 0 },
           curLine := -1, curFile := none, lines := [] }) :=
  ⟨rfl, rfl⟩

/-- C6, amended: once a call to `Next` has returned an error and left no file
pending in the file iterator, that error was `io.EOF`, and in every later
sequence of calls each `Next` returns `io.EOF` (never a record) and each `Close`
returns no error; these calls never run the blame computation and record no
warning, and each `Next` among them calls the file iterator exactly once. -/
theorem exhausted_is_terminal (blame : BlameFn) (g g1 : BlameGenerator)
    (v : Option BlameLine) (e : GoError)
    (h : Next blame g = .returns ((v, some e), g1)) (hp : g1.fIter.pending = [])
    (ops : List Op) :
    e = .EOF ∧ v = none ∧
    ∃ g2, run blame ops g1 = .returns (ops.map Op.endAnswer, g2) ∧
      g2.commit.blamed = g1.commit.blamed ∧ g2.ctx.warnings = g1.ctx.warnings ∧
      g2.fIter.nextCalls = g1.fIter.nextCalls + ops.count Op.next := by
  obtain ⟨hb, hload, hv⟩ := Next_error blame g g1 v e h
  obtain ⟨_, _, he⟩ := loadNewFile_spec blame _ g rfl
  rw [hload] at he
  obtain ⟨heof, hcl, hll⟩ := he e rfl
  simp only at hcl hll
  have hb1 : AtBoundary g1 := by
    unfold AtBoundary at hb ⊢
    rw [hcl, hll]
    exact hb
  obtain ⟨g2, h1, h2, h3, h4⟩ := run_exhausted blame ops g1 hb1 hp
  exact ⟨heof, hv, g2, h1, by rw [h2], by rw [h3], h4⟩

/-- Witness for the amended C6: a generator without files, after its first `Next`. -/
theorem exhausted_is_terminal_witness :
    GoError.EOF = .EOF ∧ (none : Option BlameLine) = none ∧
    ∃ g2, run exampleBlame [.next, .close, .next]
        { ctx := { warnings := [] }, commit := { hash := "c0", blamed := [] },
          fIter := { pending := [], nextCalls := 1, closeCalls := 0 },
          curLine := -1, curFile := none, lines := [] } =
        .returns ([Op.next, Op.close, Op.next].map Op.endAnswer, g2) ∧
      g2.commit.blamed = [] ∧ g2.ctx.warnings = [] ∧
      g2.fIter.nextCalls = 1 + [Op.next, Op.close, Op.next].count Op.next :=
  exhausted_is_terminal exampleBlame
    (NewBlameGenerator { warnings := [] } { hash := "c0", blamed := [] } (FileIter.fresh [])).1
    { ctx := { warnings := [] }, commit := { hash := "c0", blamed := [] },
      fIter := { pending := [], nextCalls := 1, closeCalls := 0 },
      curLine := -1, curFile := none, lines := [] }
    none .EOF rfl rfl [.next, .close, .next]

/-- C9, as stated, fails: after `Close` has been called twice the file iterator
has been closed twice, and after a generator has been pulled to `io.EOF` the
file iterator has not been closed at all. -/
theorem close_once_counterexample :
    run exampleBlame [.close, .close] exampleGenerator =
      .returns
        ([(none, none), (none, none)],
         { ctx := { warnings := [] }, commit := { hash := "c0", blamed := [] },
           fIter := { pending := [], nextCalls := 0, closeCalls := 2 },
           curLine := -1, curFile := none, lines := [] }) ∧
    pull exampleBlame 6 exampleGenerator =
      .returns
        ([{ File := "F1", LineNum := 0, Author := "ann", Text := "a" },
          { File := "F1", LineNum := 1, Author := "bob", Text := "b" },
          { File := "F1", LineNum := 2, Author := "ann", Text := "c" },
          { File := "F3", LineNum := 0, Author := "cid", Text := "d" },
          { File := "F3", LineNum := 1, Author := "cid", Text := "e" }],
         some .EOF,
         { ctx := { warnings := [] }, commit := { hash := "c0", blamed := ["F1", "F2", "F3"] },
           fIter := { pending := [], nextCalls := 4, closeCalls := 0 },
           curLine := 2, curFile := none,
           lines := [{ Author := "cid", Text := "d" }, { Author := "cid", Text := "e" }] }) :=
  ⟨rfl, rfl⟩

/-- C9, amended: `Close` returns no error in every state of the generator, and
each call of `Close` closes the file iterator once while `Next` never closes
it: after any sequence of `Next` and `Close` calls on a fresh generator, none of
which panics, the file iterator has been closed as many times as `Close` was
called, and every one of those `Close` calls returned no error. -/
theorem close_forwards_each_call (blame : BlameFn) (ctx : Context) (c : Commit)
    (f : FileIter) (ops : List Op) :
    (∀ g : BlameGenerator, (Close g).1 = none ∧
      (Close g).2.fIter.closeCalls = g.fIter.closeCalls + 1) ∧
    ∃ rs g, run blame ops (NewBlameGenerator ctx c f).1 = .returns (rs, g) ∧
      g.fIter.closeCalls = f.closeCalls + ops.count Op.close ∧
      ∀ i : Nat, ops[i]? = some Op.close → rs[i]? = some (none, none) := by
  refine ⟨fun g => ⟨rfl, rfl⟩, ?_⟩
  obtain ⟨rs, g, h1, _, h3, _, h5⟩ :=
    run_inv blame ops (NewBlameGenerator ctx c f).1 (New_inv ctx c f)
  exact ⟨rs, g, h1, h3, h5⟩

/-- C10: in every state reached from `NewBlameGenerator` by a sequence of `Next`
and `Close` calls (no such sequence panics), `curLine` is `-1` or lies between
`0` and `len(lines)`; and when the first statement of `Next` leaves no error,
the state in which `lines[curLine]` is read has `0 <= curLine < len(lines)` and
a non-nil `curFile`, so that `Next` does not panic. -/
theorem cursor_in_range (blame : BlameFn) (ctx : Context) (c : Commit) (f : FileIter)
    (ops : List Op) :
    ∃ rs g, run blame ops (NewBlameGenerator ctx c f).1 = .returns (rs, g) ∧
      (g.curLine = -1 ∨ (0 ≤ g.curLine ∧ g.curLine ≤ (g.lines.length : Int))) ∧
      (∀ g1, Next.load blame g = (none, g1) →
        0 ≤ g1.curLine ∧ g1.curLine < (g1.lines.length : Int) ∧ g1.curFile ≠ none) ∧
      (∀ p, Next blame g ≠ .panics p) := by
  obtain ⟨rs, g, h1, hi, _, _, _⟩ :=
    run_inv blame ops (NewBlameGenerator ctx c f).1 (New_inv ctx c f)
  refine ⟨rs, g, h1, hi.1, ?_, ?_⟩
  · intro g1 hl
    obtain ⟨a, b, hc⟩ := Next_load_inv blame g g1 hi hl
    refine ⟨a, b, ?_⟩
    intro hnone
    rw [hnone] at hc
    cases hc
  · intro p hp
    obtain ⟨r, g1, hn, _, _⟩ := Next_inv blame g hi
    rw [hn] at hp
    cases hp

end Gitbase.Function

namespace Gitbase

/-! ### `Checksum`: the loop over the pool -/

theorem Checksum_loop_step_ok (pool : RepositoryPool) (id : String) (ids : List String)
    (hash b1 b2 : Bytes) (repo : repository) (hr : pool.repositories id = some repo)
    (h1 : readChecksum repo = (b1, none)) (h2 : readRefs repo = .returns (b2, none)) :
    Checksum.loop pool (id :: ids) hash =
      Checksum.loop pool ids (hash ++ bytesOf id ++ b1 ++ b2) := by
  simp only [Checksum.loop, hr, h1, h2]

theorem Checksum_loop_step_fail (pool : RepositoryPool) (id : String) (ids : List String)
    (hash : Bytes) (e : GoError) (h : ReadFails pool id e) :
    Checksum.loop pool (id :: ids) hash = .returns (.error e) := by
  obtain ⟨repo, hr, hf⟩ := h
  rcases hf with ⟨b, hb⟩ | ⟨b1, b2, hb1, hb2⟩
  · simp only [Checksum.loop, hr, hb]
  · simp only [Checksum.loop, hr, hb1, hb2]

theorem Checksum_loop_ok (pool : RepositoryPool) (packs refs : String → Bytes) :
    ∀ (ids : List String) (hash : Bytes),
      (∀ id ∈ ids, ∃ repo, pool.repositories id = some repo ∧
        readChecksum repo = (packs id, none) ∧ readRefs repo = .returns (refs id, none)) →
      Checksum.loop pool ids hash = .returns (.ok (hash ++ digestInput packs refs ids)) := by
  intro ids
  induction ids with
  | nil => intro hash _; simp [Checksum.loop, digestInput]
  | cons id ids ih =>
    intro hash h
    obtain ⟨repo, hr, h1, h2⟩ := h id (List.mem_cons_self _ _)
    rw [Checksum_loop_step_ok pool id ids hash _ _ repo hr h1 h2,
      ih _ (fun j hj => h j (List.mem_cons_of_mem _ hj))]
    simp [digestInput, List.append_assoc]

theorem Checksum_loop_prefix (pool : RepositoryPool) :
    ∀ (pre : List String) (hash : Bytes), (∀ j ∈ pre, ReadsOk pool j) →
      ∃ h2, ∀ rest, Checksum.loop pool (pre ++ rest) hash = Checksum.loop pool rest h2 := by
  intro pre
  induction pre with
  | nil => intro hash _; exact ⟨hash, fun _ => rfl⟩
  | cons id pre ih =>
    intro hash h
    obtain ⟨repo, b1, b2, hr, h1, h2⟩ := h id (List.mem_cons_self _ _)
    obtain ⟨h3, hh⟩ := ih (hash ++ bytesOf id ++ b1 ++ b2)
      (fun j hj => h j (List.mem_cons_of_mem _ hj))
    refine ⟨h3, fun rest => ?_⟩
    rw [List.cons_append, Checksum_loop_step_ok pool id _ hash b1 b2 repo hr h1 h2, hh rest]

/-- An early return of the loop comes from the first read that does not succeed. -/
theorem Checksum_loop_error (pool : RepositoryPool) (e : GoError) :
    ∀ (ids : List String) (hash : Bytes),
      Checksum.loop pool ids hash = .returns (.error e) →
      ∃ pre id post, ids = pre ++ id :: post ∧ (∀ j ∈ pre, ReadsOk pool j) ∧
        ReadFails pool id e := by
  intro ids
  induction ids with
  | nil => intro hash h; simp [Checksum.loop] at h
  | cons id ids ih =>
    intro hash h
    cases hr : pool.repositories id with
    | none => simp [Checksum.loop, hr] at h
    | some repo =>
      rcases h1 : readChecksum repo with ⟨b1, e1⟩
      cases e1 with
      | some e1 =>
        simp only [Checksum.loop, hr, h1, Run.returns.injEq, Except.error.injEq] at h
        refine ⟨[], id, ids, rfl, (fun j hj => by cases hj), repo, hr, Or.inl ⟨b1, ?_⟩⟩
        rw [h1, h]
      | none =>
        cases h2 : readRefs repo with
        | panics p => simp [Checksum.loop, hr, h1, h2] at h
        | returns a =>
          obtain ⟨b2, e2⟩ := a
          cases e2 with
          | some e2 =>
            simp only [Checksum.loop, hr, h1, h2, Run.returns.injEq, Except.error.injEq] at h
            refine ⟨[], id, ids, rfl, (fun j hj => by cases hj), repo, hr,
              Or.inr ⟨b1, b2, h1, ?_⟩⟩
            rw [h2, h]
          | none =>
            rw [Checksum_loop_step_ok pool id ids hash b1 b2 repo hr h1 h2] at h
            obtain ⟨pre, id2, post, hs, hpre, hf⟩ := ih _ h
            refine ⟨id :: pre, id2, post, by rw [hs]; rfl, ?_, hf⟩
            intro j hj
            rcases List.mem_cons.mp hj with rfl | hj
            · exact ⟨repo, b1, b2, hr, h1, h2⟩
            · exact hpre j hj

/-- When no read panics, a read that fails anywhere in the pool makes the loop
return an error. -/
theorem Checksum_loop_fails (pool : RepositoryPool) :
    ∀ (ids : List String) (hash : Bytes), (∀ id ∈ ids, ReadsSafely pool id) →
      (∃ id ∈ ids, ∃ e, ReadFails pool id e) →
      ∃ e, Checksum.loop pool ids hash = .returns (.error e) := by
  intro ids
  induction ids with
  | nil => intro hash _ h; obtain ⟨id, hid, _⟩ := h; cases hid
  | cons id ids ih =>
    intro hash hsafe hfail
    obtain ⟨repo, hr, hnp⟩ := hsafe id (List.mem_cons_self _ _)
    rcases h1 : readChecksum repo with ⟨b1, e1⟩
    cases e1 with
    | some e1 => exact ⟨e1, Checksum_loop_step_fail pool id ids hash e1 ⟨repo, hr, Or.inl ⟨b1, h1⟩⟩⟩
    | none =>
      cases h2 : readRefs repo with
      | panics p => exact absurd h2 (hnp p)
      | returns a =>
        obtain ⟨b2, e2⟩ := a
        cases e2 with
        | some e2 =>
          exact ⟨e2, Checksum_loop_step_fail pool id ids hash e2
            ⟨repo, hr, Or.inr ⟨b1, b2, h1, h2⟩⟩⟩
        | none =>
          rw [Checksum_loop_step_ok pool id ids hash b1 b2 repo hr h1 h2]
          apply ih _ (fun j hj => hsafe j (List.mem_cons_of_mem _ hj))
          obtain ⟨id2, hid2, e, hf⟩ := hfail
          rcases List.mem_cons.mp hid2 with rfl | hid2
          · exfalso
            obtain ⟨repo2, hr2, hf2⟩ := hf
            rw [hr] at hr2
            cases hr2
            rcases hf2 with ⟨b, hb⟩ | ⟨c1, c2, _, hc2⟩
            · rw [h1] at hb; cases hb
            · rw [h2] at hc2; cases hc2
          · exact ⟨id2, hid2, e, hf⟩

end Gitbase

namespace Gitbase

/-! ### The checksum: results -/

/-- C3: when reading the packfile checksums and the reference bytes succeeds for
every repository of the pool, `Checksum` returns, with no error, the base64
encoding of the SHA-1 digest of the concatenation, over `idOrder`, of the bytes
of the identifier, the packfile-checksum bytes and the reference bytes of each
repository; so two pools with the same `idOrder` and the same bytes for each
repository give the same string. -/
theorem Checksum_of_pool (sha1 : Bytes → Bytes) (base64 : Bytes → String) (c : checksumable)
    (packs refs : String → Bytes)
    (h : ∀ id ∈ c.pool.idOrder, ∃ repo, c.pool.repositories id = some repo ∧
      readChecksum repo = (packs id, none) ∧ readRefs repo = .returns (refs id, none)) :
    Checksum sha1 base64 c =
      .returns (base64 (sha1 (digestInput packs refs c.pool.idOrder)), none) ∧
    ∀ c2 : checksumable, c2.pool.idOrder = c.pool.idOrder →
      (∀ id ∈ c2.pool.idOrder, ∃ repo, c2.pool.repositories id = some repo ∧
        readChecksum repo = (packs id, none) ∧ readRefs repo = .returns (refs id, none)) →
      Checksum sha1 base64 c2 = Checksum sha1 base64 c := by
  have key : ∀ d : checksumable,
      (∀ id ∈ d.pool.idOrder, ∃ repo, d.pool.repositories id = some repo ∧
        readChecksum repo = (packs id, none) ∧ readRefs repo = .returns (refs id, none)) →
      Checksum sha1 base64 d =
        .returns (base64 (sha1 (digestInput packs refs d.pool.idOrder)), none) := by
    intro d hd
    unfold Checksum
    rw [Checksum_loop_ok d.pool packs refs d.pool.idOrder [] hd]
    simp
  refine ⟨key c h, ?_⟩
  intro c2 hid h2
  rw [key c2 h2, key c h, hid]

/-- Witness for C3: a pool of one repository with one packfile and a resolved HEAD. -/
theorem Checksum_of_pool_witness :
    (∀ id ∈ (singlePool "r1" exampleRepository).idOrder,
      ∃ repo, (singlePool "r1" exampleRepository).repositories id = some repo ∧
        readChecksum repo = ([1, 2, 3], none) ∧
        readRefs repo =
          .returns (bytesOf "HEAD" ++ bytesOf "aa" ++ bytesOf "refs/heads/master" ++ bytesOf "aa",
            none)) ∧
    Checksum exampleSha1 exampleBase64 { pool := singlePool "r1" exampleRepository } =
      .returns (exampleBase64 (exampleSha1
        (digestInput (fun _ => [1, 2, 3])
          (fun _ => bytesOf "HEAD" ++ bytesOf "aa" ++ bytesOf "refs/heads/master" ++ bytesOf "aa")
          ["r1"])), none) :=
  have hyp : ∀ id ∈ (singlePool "r1" exampleRepository).idOrder,
      ∃ repo, (singlePool "r1" exampleRepository).repositories id = some repo ∧
        readChecksum repo = ([1, 2, 3], none) ∧
        readRefs repo =
          .returns (bytesOf "HEAD" ++ bytesOf "aa" ++ bytesOf "refs/heads/master" ++ bytesOf "aa",
            none) := by
    intro id hid
    simp only [singlePool, List.mem_singleton] at hid
    subst hid
    exact ⟨exampleRepository, rfl, rfl, rfl⟩
  ⟨hyp, (Checksum_of_pool exampleSha1 exampleBase64
    { pool := singlePool "r1" exampleRepository } (fun _ => [1, 2, 3])
    (fun _ => bytesOf "HEAD" ++ bytesOf "aa" ++ bytesOf "refs/heads/master" ++ bytesOf "aa")
    hyp).1⟩

/-- C4 fails on the code: for a repository that loads and whose `Head()` gives
`plumbing.ErrReferenceNotFound`, `readRefs` takes the branch that writes `"HEAD"`
and reads `head.Hash()` with `head` nil, and panics. -/
theorem readRefs_unborn_head : readRefs unbornRepository = .panics .nilDereference := rfl

/-- Where `Checksum` returns: it returns an error `e` exactly when some repository
in pool order has a read that returns `e` (its packfile read, or its reference
read after a successful packfile read) while both reads of every repository
before it succeed, and then the returned string is empty; and in a pool where
no read panics, `Checksum` returns an error exactly when a read of some
repository fails. -/
theorem Checksum_error_iff_first_failure (sha1 : Bytes → Bytes) (base64 : Bytes → String)
    (c : checksumable) :
    (∀ s e, Checksum sha1 base64 c = .returns (s, some e) ↔
      (s = "" ∧ ∃ pre id post, c.pool.idOrder = pre ++ id :: post ∧
        (∀ j ∈ pre, ReadsOk c.pool j) ∧ ReadFails c.pool id e)) ∧
    ((∀ id ∈ c.pool.idOrder, ReadsSafely c.pool id) →
      ((∃ s e, Checksum sha1 base64 c = .returns (s, some e)) ↔
        ∃ id ∈ c.pool.idOrder, ∃ e, ReadFails c.pool id e)) := by
  have hret : ∀ s e, Checksum sha1 base64 c = .returns (s, some e) →
      s = "" ∧ Checksum.loop c.pool c.pool.idOrder [] = .returns (.error e) := by
    intro s e h
    unfold Checksum at h
    cases hl : Checksum.loop c.pool c.pool.idOrder [] with
    | panics p => rw [hl] at h; cases h
    | returns a =>
      rw [hl] at h
      cases a with
      | error e2 =>
        simp only [Run.returns.injEq, Prod.mk.injEq, Option.some.injEq] at h
        exact ⟨h.1.symm, by rw [h.2]⟩
      | ok b => simp at h
  have hloop : ∀ e, Checksum.loop c.pool c.pool.idOrder [] = .returns (.error e) →
      Checksum sha1 base64 c = .returns ("", some e) := by
    intro e h
    unfold Checksum
    rw [h]
  constructor
  · intro s e
    constructor
    · intro h
      obtain ⟨hs, hl⟩ := hret s e h
      exact ⟨hs, Checksum_loop_error c.pool e _ _ hl⟩
    · rintro ⟨hs, pre, id, post, hsplit, hpre, hf⟩
      rw [hs]
      apply hloop
      obtain ⟨h2, hh⟩ := Checksum_loop_prefix c.pool pre [] hpre
      rw [hsplit, hh, Checksum_loop_step_fail c.pool id post h2 e hf]
  · intro hsafe
    constructor
    · rintro ⟨s, e, h⟩
      obtain ⟨_, hl⟩ := hret s e h
      obtain ⟨pre, id, post, hsplit, _, hf⟩ := Checksum_loop_error c.pool e _ _ hl
      exact ⟨id, by rw [hsplit]; simp, e, hf⟩
    · intro hfail
      obtain ⟨e, he⟩ := Checksum_loop_fails c.pool c.pool.idOrder [] hsafe hfail
      exact ⟨"", e, hloop e he⟩

/-- The characterisation of the returned error, at a pool whose second
repository has a packfile that cannot be opened. -/
theorem Checksum_error_iff_first_failure_example :
    (∀ id ∈ examplePool.idOrder, ReadsSafely examplePool id) ∧
    ((∃ s e, Checksum exampleSha1 exampleBase64 { pool := examplePool } =
        .returns (s, some e)) ↔
      ∃ id ∈ examplePool.idOrder, ∃ e, ReadFails examplePool id e) ∧
    (Checksum exampleSha1 exampleBase64 { pool := examplePool } =
        .returns ("", some (.other "permission denied")) ↔
      ("" = "" ∧ ∃ pre id post, examplePool.idOrder = pre ++ id :: post ∧
        (∀ j ∈ pre, ReadsOk examplePool j) ∧
        ReadFails examplePool id (.other "permission denied"))) :=
  have hsafe : ∀ id ∈ examplePool.idOrder, ReadsSafely examplePool id := by
    intro id hid
    simp only [examplePool, List.mem_cons, List.mem_singleton, List.not_mem_nil,
      or_false] at hid
    rcases hid with rfl | rfl
    · exact ⟨exampleRepository, rfl, fun p hp =>
        Run.noConfusion (show Run.returns _ = Run.panics p from hp)⟩
    · exact ⟨brokenRepository, rfl, fun p hp =>
        Run.noConfusion (show Run.returns _ = Run.panics p from hp)⟩
  ⟨hsafe,
   (Checksum_error_iff_first_failure exampleSha1 exampleBase64 { pool := examplePool }).2 hsafe,
   (Checksum_error_iff_first_failure exampleSha1 exampleBase64 { pool := examplePool }).1 ""
     (.other "permission denied")⟩

/-- C5 fails on the code: in a pool whose first repository has no commit yet
(`Head()` gives `plumbing.ErrReferenceNotFound`) and whose second repository has
a packfile that cannot be opened, the packfile read of the second repository
fails, yet `Checksum` returns neither an error nor a string: it panics in
`readRefs` of the first repository. -/
theorem Checksum_panics_before_failure :
    crashingPool.repositories "b" = some brokenRepository ∧
    readChecksum brokenRepository = ([], some (.other "permission denied")) ∧
    ReadFails crashingPool "b" (.other "permission denied") ∧
    Checksum exampleSha1 exampleBase64 { pool := crashingPool } = .panics .nilDereference ∧
    ¬ ∃ s e, Checksum exampleSha1 exampleBase64 { pool := crashingPool } =
      .returns (s, some e) := by
  have hp : Checksum exampleSha1 exampleBase64 { pool := crashingPool } =
      .panics .nilDereference := rfl
  refine ⟨rfl, rfl, ⟨brokenRepository, rfl, Or.inl ⟨[], rfl⟩⟩, hp, ?_⟩
  rintro ⟨s, e, h⟩
  rw [hp] at h
  cases h

/-- C8: for a repository handle whose `Repo()` gives `git.ErrRepositoryNotExists`,
`readRefs` returns no byte and no error; and for a pool holding one such
repository with no packfile, `Checksum` succeeds, the bytes written to the
digest being those of the identifier, so that the result is the base64 encoding
of the SHA-1 digest of the identifier. -/
theorem readRefs_of_missing_repository (sha1 : Bytes → Bytes) (base64 : Bytes → String)
    (id : String) (r : repository) (hrepo : r.Repo = .error .ErrRepositoryNotExists) :
    readRefs r = .returns ([], none) ∧
    (r.FS = none → r.packfiles = .ok [] →
      Checksum.loop (singlePool id r) [id] [] = .returns (.ok (bytesOf id)) ∧
      Checksum sha1 base64 { pool := singlePool id r } =
        .returns (base64 (sha1 (bytesOf id)), none)) := by
  have href : readRefs r = .returns ([], none) := by
    simp [readRefs, hrepo]
  refine ⟨href, ?_⟩
  intro hfs hpack
  have hck : readChecksum r = ([], none) := by
    simp [readChecksum, hfs, hpack, readChecksum.loop]
  have hloop : Checksum.loop (singlePool id r) [id] [] = .returns (.ok (bytesOf id)) := by
    rw [Checksum_loop_step_ok (singlePool id r) id [] [] [] [] r (by simp [singlePool]) hck href]
    simp [Checksum.loop]
  refine ⟨hloop, ?_⟩
  unfold Checksum
  have hid : (singlePool id r).idOrder = [id] := rfl
  simp only [hid, hloop]

/-- Witness for C8: a directory that holds no git repository, under the identifier `"r1"`. -/
theorem readRefs_of_missing_repository_witness :
    emptyRepository.Repo = .error .ErrRepositoryNotExists ∧
    readRefs emptyRepository = .returns ([], none) ∧
    Checksum.loop (singlePool "r1" emptyRepository) ["r1"] [] = .returns (.ok (bytesOf "r1")) ∧
    Checksum exampleSha1 exampleBase64 { pool := singlePool "r1" emptyRepository } =
      .returns (exampleBase64 (exampleSha1 (bytesOf "r1")), none) :=
  ⟨rfl,
   (readRefs_of_missing_repository exampleSha1 exampleBase64 "r1" emptyRepository rfl).1,
   (readRefs_of_missing_repository exampleSha1 exampleBase64 "r1" emptyRepository rfl).2 rfl rfl⟩

end Gitbase

namespace Gitbase.Function

/-! ### `Blame.Eval`: results -/

/-- C7: when the repository lookup fails, or the revision resolves to no commit
(in particular when revision resolution fails and the commit lookup for the
string taken as a hash fails too), `Eval` returns a nil value and a nil error
and records one warning, the message of the error; `Eval` returns an error only
when both resolutions succeeded (the error is the one of `commit.Files()`), and
it returns a generator only when both resolutions succeeded. -/
theorem Eval_null_when_unresolved (b : Blame) (s : Session) (ctx : Context) (row : Row) :
    (∀ e, b.resolveRepo s row = .error e →
      b.Eval s ctx row = ((none, none), { warnings := ctx.warnings ++ [e.Error] })) ∧
    (∀ repo e, b.resolveRepo s row = .ok repo → b.resolveCommit s repo row = .error e →
      b.Eval s ctx row = ((none, none), { warnings := ctx.warnings ++ [e.Error] })) ∧
    (∀ repo str e1 e2, b.resolveRepo s row = .ok repo → b.commit row = .ok str →
      repo.ResolveRevision str = .error e1 → repo.CommitObject (s.NewHash str) = .error e2 →
      b.Eval s ctx row = ((none, none), { warnings := ctx.warnings ++ [e2.Error] })) ∧
    (∀ v e ctx1, b.Eval s ctx row = ((v, some e), ctx1) →
      ∃ repo found, b.resolveRepo s row = .ok repo ∧ b.resolveCommit s repo row = .ok found ∧
        found.Files = .error e ∧ v = none ∧ ctx1 = ctx) ∧
    (∀ g err ctx1, b.Eval s ctx row = ((some g, err), ctx1) →
      ∃ repo found fIter, b.resolveRepo s row = .ok repo ∧
        b.resolveCommit s repo row = .ok found ∧ found.Files = .ok fIter ∧
        g = (NewBlameGenerator ctx found.commit fIter).1 ∧ err = none ∧ ctx1 = ctx) := by
  have hcommit : ∀ repo e, b.resolveRepo s row = .ok repo →
      b.resolveCommit s repo row = .error e →
      b.Eval s ctx row = ((none, none), { warnings := ctx.warnings ++ [e.Error] }) := by
    intro repo e h1 h2
    simp only [Blame.Eval, h1, h2, Context.Warn]
  refine ⟨?_, hcommit, ?_, ?_, ?_⟩
  · intro e h
    simp only [Blame.Eval, h, Context.Warn]
  · intro repo str e1 e2 h1 hstr hrev hobj
    apply hcommit repo e2 h1
    simp only [Blame.resolveCommit, hstr, hrev, hobj]
  · intro v e ctx1 h
    unfold Blame.Eval at h
    cases h1 : b.resolveRepo s row with
    | error e1 => rw [h1] at h; simp at h
    | ok repo =>
      cases h2 : b.resolveCommit s repo row with
      | error e2 => rw [h1] at h; simp only [h2] at h; simp at h
      | ok found =>
        cases h3 : found.Files with
        | error e3 =>
          rw [h1] at h
          simp only [h2, h3, Prod.mk.injEq, Option.some.injEq] at h
          exact ⟨repo, found, rfl, h2, by rw [h3, h.1.2], h.1.1.symm, h.2.symm⟩
        | ok fIter =>
          rw [h1] at h
          simp only [h2, h3, NewBlameGenerator] at h
          simp at h
  · intro g err ctx1 h
    unfold Blame.Eval at h
    cases h1 : b.resolveRepo s row with
    | error e1 => rw [h1] at h; simp at h
    | ok repo =>
      cases h2 : b.resolveCommit s repo row with
      | error e2 => rw [h1] at h; simp only [h2] at h; simp at h
      | ok found =>
        cases h3 : found.Files with
        | error e3 =>
          rw [h1] at h
          simp only [h2, h3] at h
          simp at h
        | ok fIter =>
          rw [h1] at h
          simp only [h2, h3, NewBlameGenerator, Prod.mk.injEq, Option.some.injEq] at h
          exact ⟨repo, found, fIter, rfl, h2, h3, h.1.1.symm, h.1.2.symm, h.2.symm⟩

/-- Witness for C7: a repository identifier that is not in the pool, and a
revision that resolves to no commit in a repository that is. -/
theorem Eval_null_when_unresolved_witness :
    exampleCall.Eval exampleSession { warnings := [] } ["missing", "HEAD"] =
      ((none, none), { warnings := [] ++ ["repository not found"] }) ∧
    exampleCall.Eval exampleSession { warnings := [] } ["repo", "no-such-revision"] =
      ((none, none), { warnings := [] ++ ["object not found"] }) :=
  ⟨(Eval_null_when_unresolved exampleCall exampleSession { warnings := [] }
      ["missing", "HEAD"]).1 (.other "repository not found") rfl,
   (Eval_null_when_unresolved exampleCall exampleSession { warnings := [] }
      ["repo", "no-such-revision"]).2.2.1 exampleRepo "no-such-revision"
      (.other "reference not found") (.other "object not found") rfl rfl rfl rfl⟩

end Gitbase.Function
